import Mathlib

/-!
Shallow embedding of the in-memory banking ledger of `src/banking-system.py`
(classes `BankAccount` and `BankingSystem`).  Monetary amounts are modelled
as exact rationals; the externally generated inputs of the code — the
random 8-character account number (`str(uuid.uuid4())[:8]`), the creation
date (`datetime.date.today()`) and the transaction timestamps
(`datetime.datetime.now()`) — are passed in as explicit parameters.
The Python mutating methods become functions returning the updated
account/system together with the returned string.
-/

namespace Banking

/-- Renders a non-negative number of cents as a fixed two-decimal string,
mirroring the digits produced by Python's format `f"{x:.2f}"`. -/
def natFmt2 (n : Nat) : String :=
  Nat.repr (n / 100) ++ "." ++ (if n % 100 < 10 then "0" else "") ++ Nat.repr (n % 100)

/-- The number of cents nearest to the non-negative rational `n / d`:
`⌊100 * n / d + 1 / 2⌋` computed with floored integer division. -/
def centsOf (n : ℤ) (d : ℕ) : ℤ :=
  Int.fdiv (200 * n + d) (2 * d)

/-- Embedding of Python's two-decimal formatting `f"{x:.2f}"` on the exact
rational value: round to the nearest cent and print with two decimals
(sign first), working on the normalised numerator and denominator. -/
def fmt2 (q : ℚ) : String :=
  if q.num < 0 then "-" ++ natFmt2 (Int.toNat (centsOf (-q.num) q.den))
  else natFmt2 (Int.toNat (centsOf q.num q.den))

/-- A transaction record: the Python tuple `(kind, signed_amount, timestamp)`
appended to `self.transactions`. -/
structure Txn where
  kind : String
  amount : ℚ
  time : Nat
deriving DecidableEq

/-- The state of `BankAccount`: the fields set in `BankAccount.__init__`. -/
structure BankAccount where
  account_number : String
  account_holder_name : String
  balance : ℚ
  account_type : String
  transactions : List Txn
  creation_date : String
deriving DecidableEq

namespace BankAccount

/-- `BankAccount.__init__`: the generated `account_number` and the current
date are external inputs, passed explicitly. -/
def init (account_number account_holder_name : String) (initial_balance : ℚ)
    (account_type : String) (creation_date : String) : BankAccount :=
  { account_number := account_number
    account_holder_name := account_holder_name
    balance := initial_balance
    account_type := account_type
    transactions := []
    creation_date := creation_date }

/-- `BankAccount.deposit`: adds the amount, appends a Deposit record with
the current timestamp `t`, returns the confirmation string. -/
def deposit (a : BankAccount) (amount : ℚ) (t : Nat) : BankAccount × String :=
  let b := a.balance + amount
  ({ a with balance := b, transactions := a.transactions ++ [⟨"Deposit", amount, t⟩] },
   "Deposited $" ++ fmt2 amount ++ ". New balance: $" ++ fmt2 b)

/-- `BankAccount.withdraw`: if `amount > balance` returns the sentinel
string unchanged, otherwise subtracts, appends a Withdraw record with the
negated amount, and returns the confirmation string. -/
def withdraw (a : BankAccount) (amount : ℚ) (t : Nat) : BankAccount × String :=
  if a.balance < amount then (a, "Insufficient funds.")
  else
    let b := a.balance - amount
    ({ a with balance := b, transactions := a.transactions ++ [⟨"Withdraw", -amount, t⟩] },
     "Withdrew $" ++ fmt2 amount ++ ". New balance: $" ++ fmt2 b)

/-- `BankAccount.get_details`: the formatted snapshot string. -/
def get_details (a : BankAccount) : String :=
  "Account: " ++ a.account_number ++ "\nHolder: " ++ a.account_holder_name ++
  "\nType: " ++ a.account_type ++ "\nBalance: $" ++ fmt2 a.balance ++
  "\nCreated: " ++ a.creation_date

/-- `BankAccount.transaction_history`: one line per record, or the sentinel
message when the list is empty. -/
def transaction_history (a : BankAccount) : String :=
  if a.transactions.isEmpty then "No transactions yet."
  else String.intercalate "\n"
    (a.transactions.map fun t => Nat.repr t.time ++ " - " ++ t.kind ++ ": $" ++ fmt2 t.amount)

end BankAccount

/-- The state of `BankingSystem`: the dictionary `self.accounts`, modelled
as an association list from account number to account (dictionary keys are
unique in every state reachable from `{}`). -/
structure BankingSystem where
  accounts : List (String × BankAccount)
deriving DecidableEq

/-- Dictionary lookup `d.get(k)`. -/
def dictGet (d : List (String × BankAccount)) (k : String) : Option BankAccount :=
  match d with
  | [] => none
  | (k₁, v) :: rest => if k₁ = k then some v else dictGet rest k

/-- Dictionary assignment `d[k] = v`: replaces the binding when the key is
present, appends it otherwise. -/
def dictSet (d : List (String × BankAccount)) (k : String) (v : BankAccount) :
    List (String × BankAccount) :=
  match d with
  | [] => [(k, v)]
  | (k₁, v₁) :: rest => if k₁ = k then (k, v) :: rest else (k₁, v₁) :: dictSet rest k v

/-- Key removal of `d.pop(k, None)`: drops every binding of `k` (a
dictionary binds each key at most once, so at most one is dropped). -/
def eraseKey (d : List (String × BankAccount)) (k : String) :
    List (String × BankAccount) :=
  d.filter fun p => p.1 ≠ k

namespace BankingSystem

/-- `BankingSystem.__init__`: the empty dictionary. -/
def empty : BankingSystem := ⟨[]⟩

/-- `BankingSystem.create_account`: builds the account (its generated
number and date passed explicitly), stores it under its number by plain
dictionary assignment, returns the number. -/
def create_account (sys : BankingSystem) (number name : String) (balance : ℚ)
    (account_type creation_date : String) : String × BankingSystem :=
  let acc := BankAccount.init number name balance account_type creation_date
  (acc.account_number, ⟨dictSet sys.accounts acc.account_number acc⟩)

/-- `BankingSystem.get_account`: `self.accounts.get(acc_number)`. -/
def get_account (sys : BankingSystem) (acc_number : String) : Option BankAccount :=
  dictGet sys.accounts acc_number

/-- `BankingSystem.delete_account`: `self.accounts.pop(acc_number, None)` —
returns the stored account (or `none`) and the dictionary without the key. -/
def delete_account (sys : BankingSystem) (acc_number : String) :
    Option BankAccount × BankingSystem :=
  (dictGet sys.accounts acc_number, ⟨eraseKey sys.accounts acc_number⟩)

end BankingSystem

/-- An account-level operation issued by a caller: a deposit or a withdrawal
of an amount at a timestamp. -/
inductive AOp where
  | deposit (amount : ℚ) (t : Nat)
  | withdraw (amount : ℚ) (t : Nat)
deriving DecidableEq

/-- The amount carried by an account operation. -/
def AOp.amount : AOp → ℚ
  | .deposit a _ => a
  | .withdraw a _ => a

/-- Applies one operation to an account, returning the updated account and
the returned message. -/
def applyOp (a : BankAccount) (op : AOp) : BankAccount × String :=
  match op with
  | .deposit amt t => a.deposit amt t
  | .withdraw amt t => a.withdraw amt t

/-- Runs a sequence of operations on an account, in order. -/
def runAccount (a : BankAccount) (ops : List AOp) : BankAccount :=
  match ops with
  | [] => a
  | op :: rest => runAccount (applyOp a op).1 rest

/-- The transaction records a sequence of operations appends, in order:
one per deposit, one per withdrawal that passes the balance guard. -/
def newRecords (a : BankAccount) (ops : List AOp) : List Txn :=
  match ops with
  | [] => []
  | .deposit amt t :: rest =>
      ⟨"Deposit", amt, t⟩ :: newRecords (a.deposit amt t).1 rest
  | .withdraw amt t :: rest =>
      (if a.balance < amt then [] else [⟨"Withdraw", -amt, t⟩]) ++
        newRecords (a.withdraw amt t).1 rest

/-- The number of successful operations in a sequence: every deposit, and
every withdrawal whose amount does not exceed the balance at its turn. -/
def countSucc (a : BankAccount) (ops : List AOp) : Nat :=
  match ops with
  | [] => 0
  | .deposit amt t :: rest => 1 + countSucc (a.deposit amt t).1 rest
  | .withdraw amt t :: rest =>
      (if a.balance < amt then 0 else 1) + countSucc (a.withdraw amt t).1 rest

/-- Runs a sequence of deposits (amount, timestamp pairs) on an account. -/
def runDeposits (a : BankAccount) (ds : List (ℚ × Nat)) : BankAccount :=
  match ds with
  | [] => a
  | d :: rest => runDeposits (a.deposit d.1 d.2).1 rest

/-- A ledger-level operation: account creation (with its externally
generated number and date made explicit) or deletion. -/
inductive LOp where
  | create (number name : String) (balance : ℚ) (account_type creation_date : String)
  | delete (number : String)
deriving DecidableEq

/-- Runs a sequence of ledger operations, returning the final system and
the list of account numbers returned by the `create_account` calls, in
order. -/
def runLedger (sys : BankingSystem) (ops : List LOp) : BankingSystem × List String :=
  match ops with
  | [] => (sys, [])
  | .create number name bal ty date :: rest =>
      let r := sys.create_account number name bal ty date
      let rec₁ := runLedger r.2 rest
      (rec₁.1, r.1 :: rec₁.2)
  | .delete number :: rest => runLedger (sys.delete_account number).2 rest

/-- The keys of the ledger's account dictionary. -/
def sysKeys (sys : BankingSystem) : List String :=
  sys.accounts.map Prod.fst

/-- `big` contains `small` as a contiguous substring. -/
def containsStr (big small : String) : Prop :=
  ∃ s t, s ++ small.data ++ t = big.data

/-- A concrete account used to instantiate the theorems below. -/
def sampleAccount : BankAccount :=
  BankAccount.init "a1b2c3d4" "Bob" 100 "Savings" "2024-01-01"

/-- A concrete one-account system used to instantiate the theorems below. -/
def sampleSystem : BankingSystem :=
  ⟨[("a1b2c3d4", sampleAccount)]⟩

/-- A ledger run in which the external id generator repeats itself: the
id "x" is issued, the account is deleted, and "x" is issued again. -/
def dupOps : List LOp :=
  [LOp.create "x" "Alice" 100 "Savings" "2024-01-01",
   LOp.delete "x",
   LOp.create "x" "Bob" 50 "Checking" "2024-01-02"]

/-- String append concatenates the underlying character lists. -/
theorem strData (a b : String) : (a ++ b).data = a.data ++ b.data := rfl

/-- A withdrawal confirmation is never the insufficient-funds sentinel:
the two strings differ at their first character. -/
theorem withdrew_ne_insufficient (x y : String) :
    "Withdrew $" ++ x ++ ". New balance: $" ++ y ≠ "Insufficient funds." := by
  intro heq
  have h₁ : (some 'W' : Option Char) = some 'I' :=
    congrArg (fun s => s.data.head?) heq
  exact absurd h₁ (by decide)

/-- Claim C1: when the requested amount exceeds the balance, `withdraw`
returns the sentinel string "Insufficient funds." and performs no mutation:
the balance and the transaction list are unchanged. -/
theorem withdraw_insufficient_no_mutation (a : BankAccount) (amount : ℚ) (t : Nat)
    (h : a.balance < amount) :
    (a.withdraw amount t).2 = "Insufficient funds." ∧
    (a.withdraw amount t).1.balance = a.balance ∧
    (a.withdraw amount t).1.transactions = a.transactions ∧
    (a.withdraw amount t).1 = a := by
  simp [BankAccount.withdraw, h]

/-- Witness for C1: withdrawing 200 from a balance of 100. -/
theorem withdraw_insufficient_no_mutation_w :
    sampleAccount.balance < 200 ∧
    (sampleAccount.withdraw 200 0).2 = "Insufficient funds." ∧
    (sampleAccount.withdraw 200 0).1 = sampleAccount :=
  ⟨by decide,
   (withdraw_insufficient_no_mutation sampleAccount 200 0 (by decide)).1,
   (withdraw_insufficient_no_mutation sampleAccount 200 0 (by decide)).2.2.2⟩

/-- Claim C3: when the requested amount does not exceed the balance,
`withdraw` decreases the balance by exactly the amount, appends a Withdraw
record storing the negated amount, and returns a confirmation string that
contains the formatted new balance. -/
theorem withdraw_success_spec (a : BankAccount) (amount : ℚ) (t : Nat)
    (h : amount ≤ a.balance) :
    (a.withdraw amount t).1.balance = a.balance - amount ∧
    (a.withdraw amount t).1.transactions =
      a.transactions ++ [⟨"Withdraw", -amount, t⟩] ∧
    (a.withdraw amount t).2 =
      "Withdrew $" ++ fmt2 amount ++ ". New balance: $" ++ fmt2 (a.balance - amount) ∧
    containsStr (a.withdraw amount t).2 (fmt2 (a.balance - amount)) := by
  have h₁ : ¬ a.balance < amount := not_lt.mpr h
  refine ⟨by simp [BankAccount.withdraw, h₁], by simp [BankAccount.withdraw, h₁],
    by simp [BankAccount.withdraw, h₁], ?_⟩
  refine ⟨("Withdrew $" ++ fmt2 amount ++ ". New balance: $").data, [], ?_⟩
  simp [BankAccount.withdraw, h₁, strData]

/-- Witness for C3: withdrawing 30 from a balance of 100. -/
theorem withdraw_success_spec_w :
    (30 : ℚ) ≤ sampleAccount.balance ∧
    (sampleAccount.withdraw 30 7).1.balance = sampleAccount.balance - 30 ∧
    (sampleAccount.withdraw 30 7).1.transactions =
      sampleAccount.transactions ++ [⟨"Withdraw", -30, 7⟩] :=
  ⟨by decide,
   (withdraw_success_spec sampleAccount 30 7 (by decide)).1,
   (withdraw_success_spec sampleAccount 30 7 (by decide)).2.1⟩

/-- Claim C9: `withdraw` only guards against `amount > balance`, so a
negative amount passes the guard, the balance strictly increases by the
absolute value of the amount, a Withdraw record holding the (positive)
negated amount is appended, and the sentinel is not returned. -/
theorem withdraw_negative_amount_increases_balance (a : BankAccount) (amount : ℚ)
    (t : Nat) (hneg : amount < 0) (h : amount ≤ a.balance) :
    (a.withdraw amount t).1.balance = a.balance + (-amount) ∧
    a.balance < (a.withdraw amount t).1.balance ∧
    (a.withdraw amount t).1.transactions =
      a.transactions ++ [⟨"Withdraw", -amount, t⟩] ∧
    (0 : ℚ) < -amount ∧
    (a.withdraw amount t).2 ≠ "Insufficient funds." := by
  have h₁ : ¬ a.balance < amount := not_lt.mpr h
  refine ⟨by simp [BankAccount.withdraw, h₁]; ring,
    ?_, by simp [BankAccount.withdraw, h₁], by linarith, ?_⟩
  · simp only [BankAccount.withdraw, h₁, if_false]
    have : a.balance < a.balance - amount := by linarith
    simpa using this
  · simp only [BankAccount.withdraw, h₁, if_false]
    exact withdrew_ne_insufficient _ _

/-- Witness for C9: withdrawing -5 from a balance of 100. -/
theorem withdraw_negative_amount_increases_balance_w :
    (-5 : ℚ) < 0 ∧ (-5 : ℚ) ≤ sampleAccount.balance ∧
    (sampleAccount.withdraw (-5) 3).1.transactions =
      sampleAccount.transactions ++ [⟨"Withdraw", -(-5), 3⟩] ∧
    sampleAccount.balance < (sampleAccount.withdraw (-5) 3).1.balance :=
  ⟨by decide, by decide,
   (withdraw_negative_amount_increases_balance sampleAccount (-5) 3
     (by decide) (by decide)).2.2.1,
   (withdraw_negative_amount_increases_balance sampleAccount (-5) 3
     (by decide) (by decide)).2.1⟩

/-- Claim C4: `deposit` always succeeds — after any sequence of deposits
the balance is the initial balance plus the sum of the deposited amounts,
and every single deposit returns the confirmation string containing the
formatted new balance. -/
theorem deposit_sequence_sums (a : BankAccount) (ds : List (ℚ × Nat)) :
    (runDeposits a ds).balance = a.balance + (ds.map Prod.fst).sum ∧
    ∀ (b : BankAccount) (amount : ℚ) (t : Nat),
      (b.deposit amount t).2 =
        "Deposited $" ++ fmt2 amount ++ ". New balance: $" ++ fmt2 (b.balance + amount) ∧
      containsStr (b.deposit amount t).2 (fmt2 (b.balance + amount)) := by
  constructor
  · induction ds generalizing a with
    | nil => simp [runDeposits]
    | cons d rest ih =>
      simp only [runDeposits, BankAccount.deposit, ih, List.map_cons, List.sum_cons]
      ring
  · intro b amount t
    refine ⟨by simp [BankAccount.deposit], ?_⟩
    refine ⟨("Deposited $" ++ fmt2 amount ++ ". New balance: $").data, [], ?_⟩
    simp [BankAccount.deposit, strData]

/-- Claim C2 fails on the code: `BankAccount.__init__` stores the
caller-supplied initial balance without any sign check, so an account
constructed with a negative initial balance violates `balance >= 0`
immediately after construction. -/
theorem balance_nonneg_fails_at_negative_initial :
    (BankAccount.init "a1b2c3d4" "Bob" (-5) "Savings" "2024-01-01").balance < 0 := by
  decide

/-- The balance invariant is preserved along a run whose amounts are all
non-negative. -/
theorem runAccount_balance_nonneg (a : BankAccount) (ops : List AOp)
    (h₀ : 0 ≤ a.balance) (hops : ∀ op ∈ ops, 0 ≤ op.amount) :
    0 ≤ (runAccount a ops).balance := by
  induction ops generalizing a with
  | nil => simpa [runAccount] using h₀
  | cons op rest ih =>
    have hop : 0 ≤ op.amount := hops op (by simp)
    have hrest : ∀ o ∈ rest, 0 ≤ AOp.amount o := fun o ho => hops o (by simp [ho])
    cases op with
    | deposit amt t =>
      have hamt : 0 ≤ amt := hop
      refine ih _ ?_ hrest
      simp only [applyOp, BankAccount.deposit]
      linarith
    | withdraw amt t =>
      by_cases hc : a.balance < amt
      · refine ih _ ?_ hrest
        simpa [applyOp, BankAccount.withdraw, hc] using h₀
      · refine ih _ ?_ hrest
        simp only [applyOp, BankAccount.withdraw, hc, if_false]
        have : amt ≤ a.balance := not_lt.mp hc
        linarith

/-- Claim C2 amended: provided the initial balance is non-negative and
every deposited or withdrawn amount is non-negative, the balance is
non-negative after construction and after every deposit and withdraw
operation (for an arbitrary negative initial balance or a negative
deposited amount the code lets the balance go negative). -/
theorem balance_nonneg_of_nonneg_amounts (number name : String) (bal : ℚ)
    (ty date : String) (ops : List AOp) (h₀ : 0 ≤ bal)
    (hops : ∀ op ∈ ops, 0 ≤ op.amount) :
    0 ≤ (runAccount (BankAccount.init number name bal ty date) ops).balance :=
  runAccount_balance_nonneg _ ops h₀ hops

/-- Witness for amended C2: initial balance 5, deposit 3 then withdraw 4. -/
theorem balance_nonneg_of_nonneg_amounts_w :
    0 ≤ (runAccount (BankAccount.init "a1b2c3d4" "Bob" 5 "Savings" "2024-01-01")
      [AOp.deposit 3 0, AOp.withdraw 4 1]).balance :=
  balance_nonneg_of_nonneg_amounts "a1b2c3d4" "Bob" 5 "Savings" "2024-01-01"
    [AOp.deposit 3 0, AOp.withdraw 4 1] (by decide) (by decide)

/-- The transaction list after a run is the old list with the run's new
records appended, in operation order. -/
theorem runAccount_transactions (a : BankAccount) (ops : List AOp) :
    (runAccount a ops).transactions = a.transactions ++ newRecords a ops := by
  induction ops generalizing a with
  | nil => simp [runAccount, newRecords]
  | cons op rest ih =>
    cases op with
    | deposit amt t =>
      simp [runAccount, newRecords, applyOp, ih, BankAccount.deposit]
    | withdraw amt t =>
      by_cases hc : a.balance < amt
      · simp [runAccount, newRecords, applyOp, ih, BankAccount.withdraw, hc]
      · simp [runAccount, newRecords, applyOp, ih, BankAccount.withdraw, hc]

/-- The number of records a run appends equals its number of successful
operations. -/
theorem newRecords_length (a : BankAccount) (ops : List AOp) :
    (newRecords a ops).length = countSucc a ops := by
  induction ops generalizing a with
  | nil => simp [newRecords, countSucc]
  | cons op rest ih =>
    cases op with
    | deposit amt t => simp [newRecords, countSucc, ih, Nat.add_comm]
    | withdraw amt t =>
      by_cases hc : a.balance < amt
      · simp [newRecords, countSucc, hc, ih]
      · simp [newRecords, countSucc, hc, ih, Nat.add_comm]

/-- Claim C5: after any sequence of deposit and withdraw operations the
transaction list is the original list with the run's records appended in
operation order (so nothing is removed or reordered), and its length grew
by exactly the number of successful operations — every deposit and every
withdrawal that passed the balance guard; failed withdrawals append
nothing. -/
theorem transactions_append_only (a : BankAccount) (ops : List AOp) :
    (runAccount a ops).transactions = a.transactions ++ newRecords a ops ∧
    (newRecords a ops).length = countSucc a ops ∧
    (runAccount a ops).transactions.length =
      a.transactions.length + countSucc a ops := by
  refine ⟨runAccount_transactions a ops, newRecords_length a ops, ?_⟩
  simp [runAccount_transactions a ops, newRecords_length a ops]

/-- Looking up a key just assigned returns the assigned value. -/
theorem dictGet_dictSet_self (d : List (String × BankAccount)) (k : String)
    (v : BankAccount) : dictGet (dictSet d k v) k = some v := by
  induction d with
  | nil => simp [dictSet, dictGet]
  | cons p rest ih =>
    obtain ⟨k₁, w⟩ := p
    by_cases h : k₁ = k
    · simp [dictSet, dictGet, h]
    · simp [dictSet, dictGet, h, ih]

/-- Looking up a key that is not among the dictionary's keys returns
`none`. -/
theorem dictGet_none_of_not_mem (d : List (String × BankAccount)) (k : String)
    (h : k ∉ d.map Prod.fst) : dictGet d k = none := by
  induction d with
  | nil => simp [dictGet]
  | cons p rest ih =>
    obtain ⟨k₁, w⟩ := p
    simp only [List.map_cons, List.mem_cons, not_or] at h
    have h₁ : k₁ ≠ k := fun hk => h.1 hk.symm
    simp [dictGet, h₁, ih h.2]

/-- Removing an absent key leaves the dictionary unchanged. -/
theorem eraseKey_of_dictGet_none (d : List (String × BankAccount)) (k : String)
    (h : dictGet d k = none) : eraseKey d k = d := by
  induction d with
  | nil => simp [eraseKey]
  | cons p rest ih =>
    obtain ⟨k₁, w⟩ := p
    by_cases h₁ : k₁ = k
    · simp [dictGet, h₁] at h
    · simp only [dictGet, h₁, if_false] at h
      have h₂ : eraseKey ((k₁, w) :: rest) k = (k₁, w) :: eraseKey rest k := by
        simp [eraseKey, List.filter_cons, h₁]
      rw [h₂, ih h]

/-- Looking up a key just removed returns `none`. -/
theorem dictGet_eraseKey (d : List (String × BankAccount)) (k : String) :
    dictGet (eraseKey d k) k = none := by
  induction d with
  | nil => simp [eraseKey, dictGet]
  | cons p rest ih =>
    obtain ⟨k₁, w⟩ := p
    by_cases h : k₁ = k
    · simpa [eraseKey, List.filter_cons, h] using ih
    · simpa [eraseKey, dictGet, List.filter_cons, h] using ih

/-- Assigning a key that is already present keeps the dictionary's size. -/
theorem dictSet_length_of_mem (d : List (String × BankAccount)) (k : String)
    (v : BankAccount) (h : k ∈ d.map Prod.fst) :
    (dictSet d k v).length = d.length := by
  induction d with
  | nil => simp at h
  | cons p rest ih =>
    obtain ⟨k₁, w⟩ := p
    by_cases h₁ : k₁ = k
    · simp [dictSet, h₁]
    · simp only [List.map_cons, List.mem_cons] at h
      have h₂ : k ∈ rest.map Prod.fst := by
        rcases h with h | h
        · exact absurd h.symm h₁
        · exact h
      simp [dictSet, h₁, ih h₂]

/-- A key of the dictionary after an assignment is the assigned key or a
key that was already present. -/
theorem mem_keys_dictSet (d : List (String × BankAccount)) (k : String)
    (v : BankAccount) (x : String) (h : x ∈ (dictSet d k v).map Prod.fst) :
    x = k ∨ x ∈ d.map Prod.fst := by
  induction d with
  | nil => simpa [dictSet] using h
  | cons p rest ih =>
    obtain ⟨k₁, w⟩ := p
    by_cases h₁ : k₁ = k
    · simp only [dictSet, h₁, if_true, List.map_cons, List.mem_cons] at h
      rcases h with h | h
      · exact Or.inl h
      · exact Or.inr (by simp [h])
    · simp only [dictSet, h₁, if_false, List.map_cons, List.mem_cons] at h
      rcases h with h | h
      · exact Or.inr (by simp [h])
      · rcases ih h with h | h
        · exact Or.inl h
        · exact Or.inr (by simp [h])

/-- Dictionary assignment preserves distinctness of the keys. -/
theorem nodup_keys_dictSet (d : List (String × BankAccount)) (k : String)
    (v : BankAccount) (h : (d.map Prod.fst).Nodup) :
    ((dictSet d k v).map Prod.fst).Nodup := by
  induction d with
  | nil => simp [dictSet]
  | cons p rest ih =>
    obtain ⟨k₁, w⟩ := p
    simp only [List.map_cons, List.nodup_cons] at h
    by_cases h₁ : k₁ = k
    · subst h₁
      simpa [dictSet] using h
    · simp only [dictSet, h₁, if_false, List.map_cons, List.nodup_cons]
      refine ⟨fun hx => ?_, ih h.2⟩
      rcases mem_keys_dictSet rest k v k₁ hx with hk | hk
      · exact h₁ hk
      · exact h.1 hk

/-- Key removal preserves distinctness of the keys. -/
theorem nodup_keys_eraseKey (d : List (String × BankAccount)) (k : String)
    (h : (d.map Prod.fst).Nodup) : ((eraseKey d k).map Prod.fst).Nodup :=
  h.sublist ((List.filter_sublist d).map Prod.fst)

/-- Claim C6: `get_account` on an id not in the registry returns `none`;
`delete_account` returns `none` and leaves the system unchanged when the
id is absent, returns the stored account when the id is present, and
`get_account` after `delete_account` on the same id always returns
`none`. -/
theorem lookup_delete_semantics (sys : BankingSystem) (id : String) :
    (id ∉ sysKeys sys → sys.get_account id = none) ∧
    (sys.get_account id = none →
      (sys.delete_account id).1 = none ∧ (sys.delete_account id).2 = sys) ∧
    (∀ acc, sys.get_account id = some acc → (sys.delete_account id).1 = some acc) ∧
    (sys.delete_account id).2.get_account id = none := by
  refine ⟨fun h => dictGet_none_of_not_mem _ _ h, fun h => ⟨h, ?_⟩,
    fun acc h => h, dictGet_eraseKey sys.accounts id⟩
  obtain ⟨d⟩ := sys
  exact congrArg BankingSystem.mk (eraseKey_of_dictGet_none d id h)

/-- Witness for C6: a present id is removed and returned, an absent id
yields `none` and no change. -/
theorem lookup_delete_semantics_w :
    sampleSystem.get_account "zzzz" = none ∧
    (sampleSystem.delete_account "a1b2c3d4").1 = some sampleAccount ∧
    (sampleSystem.delete_account "zzzz").2 = sampleSystem :=
  ⟨(lookup_delete_semantics sampleSystem "zzzz").1 (by decide),
   (lookup_delete_semantics sampleSystem "a1b2c3d4").2.2.1 sampleAccount rfl,
   ((lookup_delete_semantics sampleSystem "zzzz").2.1
     ((lookup_delete_semantics sampleSystem "zzzz").1 (by decide))).2⟩

/-- Claim C7 fails on the code: the 8-character account number is produced
by an unchecked external random generator, so when the generator repeats
an id — here after the first account is deleted — two created accounts
share the id "x" and a deleted id is reused. -/
theorem created_ids_not_unique :
    (runLedger BankingSystem.empty dupOps).2 = ["x", "x"] ∧
    ¬ List.Nodup (runLedger BankingSystem.empty dupOps).2 := by
  decide

/-- Claim C7 amended: the ledger itself performs no duplicate check, so
created accounts share an id whenever the external generator repeats
itself (even after a deletion); what the code does guarantee is that no
two accounts simultaneously stored in the registry share an id — distinct
registry keys stay distinct under every sequence of create and delete
operations. -/
theorem registry_keys_nodup (sys : BankingSystem) (ops : List LOp)
    (h : (sysKeys sys).Nodup) : (sysKeys (runLedger sys ops).1).Nodup := by
  induction ops generalizing sys with
  | nil => simpa [runLedger] using h
  | cons op rest ih =>
    cases op with
    | create number name bal ty date =>
      refine ih _ ?_
      simpa [BankingSystem.create_account, sysKeys, BankAccount.init] using
        nodup_keys_dictSet sys.accounts number _ h
    | delete number =>
      refine ih _ ?_
      simpa [BankingSystem.delete_account, sysKeys] using
        nodup_keys_eraseKey sys.accounts number h

/-- Witness for amended C7: the empty registry run through the duplicate
id scenario keeps its keys distinct. -/
theorem registry_keys_nodup_w :
    (sysKeys (runLedger BankingSystem.empty dupOps).1).Nodup :=
  registry_keys_nodup BankingSystem.empty dupOps (by decide)

/-- The Python format of the balance 100 is "100.00". -/
theorem fmt2_100 : fmt2 100 = "100.00" := by decide

/-- The details string of a freshly constructed account, spelled out. -/
theorem get_details_init (number name : String) (bal : ℚ) (ty date : String) :
    (BankAccount.init number name bal ty date).get_details =
      "Account: " ++ number ++ "\nHolder: " ++ name ++ "\nType: " ++ ty ++
      "\nBalance: $" ++ fmt2 bal ++ "\nCreated: " ++ date := rfl

/-- Claim C8: creating an account for "Alice" with balance 100 and type
"Savings" yields an id under which `get_account` returns the created
account, whose details string contains "Alice", "Savings" and "100.00". -/
theorem create_get_details_roundtrip (sys : BankingSystem) (id date : String) :
    (sys.create_account id "Alice" 100 "Savings" date).1 = id ∧
    (sys.create_account id "Alice" 100 "Savings" date).2.get_account id =
      some (BankAccount.init id "Alice" 100 "Savings" date) ∧
    containsStr (BankAccount.init id "Alice" 100 "Savings" date).get_details "Alice" ∧
    containsStr (BankAccount.init id "Alice" 100 "Savings" date).get_details "Savings" ∧
    containsStr (BankAccount.init id "Alice" 100 "Savings" date).get_details "100.00" := by
  refine ⟨rfl, dictGet_dictSet_self sys.accounts id _, ?_, ?_, ?_⟩
  · rw [get_details_init]
    refine ⟨("Account: " ++ id ++ "\nHolder: ").data,
      ("\nType: " ++ "Savings" ++ "\nBalance: $" ++ fmt2 100 ++ "\nCreated: " ++ date).data, ?_⟩
    simp only [strData, List.append_assoc]
  · rw [get_details_init]
    refine ⟨("Account: " ++ id ++ "\nHolder: " ++ "Alice" ++ "\nType: ").data,
      ("\nBalance: $" ++ fmt2 100 ++ "\nCreated: " ++ date).data, ?_⟩
    simp only [strData, List.append_assoc]
  · rw [get_details_init, fmt2_100]
    refine ⟨("Account: " ++ id ++ "\nHolder: " ++ "Alice" ++ "\nType: " ++ "Savings" ++
      "\nBalance: $").data, ("\nCreated: " ++ date).data, ?_⟩
    simp only [strData, List.append_assoc]

/-- Claim C10: `create_account` stores the new account by plain dictionary
assignment — when the freshly generated id already keys an account, the
old entry is silently replaced by the new account (the id is still looked
up to the new account and the registry does not grow), not rejected. -/
theorem create_account_overwrites (sys : BankingSystem) (id name : String)
    (bal : ℚ) (ty date : String) (h : id ∈ sysKeys sys) :
    (sys.create_account id name bal ty date).1 = id ∧
    (sys.create_account id name bal ty date).2.get_account id =
      some (BankAccount.init id name bal ty date) ∧
    (sys.create_account id name bal ty date).2.accounts.length =
      sys.accounts.length :=
  ⟨rfl, dictGet_dictSet_self sys.accounts id _,
   dictSet_length_of_mem sys.accounts id _ h⟩

/-- Witness for C10: re-creating an account under the already-present id
of `sampleSystem`. -/
theorem create_account_overwrites_w :
    (sampleSystem.create_account "a1b2c3d4" "Eve" 7 "Checking" "2024-02-02").2.accounts.length =
      sampleSystem.accounts.length :=
  (create_account_overwrites sampleSystem "a1b2c3d4" "Eve" 7 "Checking" "2024-02-02"
    (by decide)).2.2

end Banking
